import Mathlib

/-!
Shallow embedding of the faen-injector repository (src/faen_client.py,
src/edg.py, src/cde_client.py, src/main.py) and proofs about its
specification claims.

Modelling conventions:
- Timestamps are integers counting seconds from an arbitrary epoch
  (Python datetime arithmetic at second granularity); a calendar date is a
  whole-day index `d`, whose midnight is `dayStart d = d * 86400`.
- Python float values are modelled by exact rationals; the claims settled
  here do not depend on rounding behaviour (the one claim that does,
  permutation invariance of float sums, is not settled by a theorem).
- Network and file-parsing effects are parameters: an oracle function maps
  each issued request to its response, and CSV/date/float parsers are
  function parameters standing for the Python library calls.
- `None`-able dictionary entries are `Option` values; Python truthiness on
  strings/ints (empty string and zero are falsy) is modelled explicitly.
-/

namespace FaenInjector

/-! ## Time model -/

def secPerDay : ℤ := 86400

/-- Midnight (00:00:00) of calendar day `d`, as a second-granularity timestamp. -/
def dayStart (d : ℤ) : ℤ := d * secPerDay

/-- Midnight of 2025-05-`d`, with 2025-05-01 as day 0 of the model's epoch. -/
def may2025 (d : ℤ) : ℤ := dayStart (d - 1)

/-- A MongoDB-style datetime window as built by this repository:
`{"$gte": {"$date": gte}, "$lt": {"$date": lt}}`. Non-datetime filter fields
of a query document are carried through the client unchanged and are elided. -/
structure DTRange where
  gte : ℤ
  lt : ℤ
deriving DecidableEq

/-- Embeds faen_client.create_full_day_query (src/faen_client.py:726-752):
start bound at `datetime.combine(start_date, min.time())`, end bound at
`datetime.combine(end_date + timedelta(days=1), min.time())`, used with `$lt`. -/
def create_full_day_query (start_date end_date : ℤ) : DTRange :=
  { gte := dayStart start_date, lt := dayStart (end_date + 1) }

/-- Embeds faen_client.create_weather_query (src/faen_client.py:755-781);
identical bounds to create_full_day_query, on the datetime_utc field. -/
def create_weather_query (start_date end_date : ℤ) : DTRange :=
  { gte := dayStart start_date, lt := dayStart (end_date + 1) }

/-- Upstream comparison semantics of the built window: a record with
timestamp `t` matches when `gte <= t` and `t < lt` (`$gte` / `$lt`). -/
def DTRange.includesAt (r : DTRange) (t : ℤ) : Prop := r.gte ≤ t ∧ t < r.lt

instance (r : DTRange) (t : ℤ) : Decidable (r.includesAt t) := by
  unfold DTRange.includesAt; infer_instance

/-! ## Date chunking (faen_client._query_consumption_chunked, lines 199-278) -/

/-- chunk_size_days = 10, as a second-granularity span (timedelta(days=10)). -/
def chunkSpan : ℤ := 10 * secPerDay

/-- The while-loop of _query_consumption_chunked: starting at `cur`, emit
`(current_date, chunk_end_date)` with
`chunk_end_date = min(current_date + timedelta(days=10), end_date)` until
`current_date < end_date` fails. -/
def chunkRanges (cur endT : ℤ) : List (ℤ × ℤ) :=
  if _h : cur < endT then
    (cur, min (cur + chunkSpan) endT) :: chunkRanges (min (cur + chunkSpan) endT) endT
  else []
termination_by (endT - cur).toNat
decreasing_by
  have hspan : (0 : ℤ) < chunkSpan := by norm_num [chunkSpan, secPerDay]
  omega

/-- Python `timedelta.days`: floor division of the total seconds by 86400. -/
def timedeltaDays (delta : ℤ) : ℤ := Int.fdiv delta secPerDay

/-- The single error kind of the transport layer
(requests.exceptions.RequestException); HTTP error statuses surface through
raise_for_status as the same exception type. -/
inductive TransportError where
  | requestException
deriving DecidableEq

/-- The datetime filter of one issued upstream request; `none` stands for a
query without a parseable `{"$gte", "$lt"}` datetime window. -/
def chunkQueryOf (p : ℤ × ℤ) : Option DTRange := some { gte := p.1, lt := p.2 }

/-- Result of one call to query_consumption: the requests actually issued (in
order), whether the chunked code path ran, and the returned value or the
re-raised transport error. -/
structure QueryOutcome (α : Type) where
  requests : List (Option DTRange)
  chunked : Bool
  result : Except TransportError (List α)

/-- Loop body accumulation of _query_consumption_chunked: on success extend
all_records with the chunk's records (extending with an empty list is a
no-op, matching the `if chunk_record_count > 0` guard); on a transport
error log and continue with the next chunk. -/
def queryConsumptionChunked {α : Type}
    (oracle : Option DTRange → Except TransportError (List α))
    (startT endT : ℤ) : List α :=
  (chunkRanges startT endT).foldl
    (fun acc p =>
      match oracle (chunkQueryOf p) with
      | .ok recs => acc ++ recs
      | .error _ => acc) []

/-- Embeds FaenApiClient.query_consumption (src/faen_client.py:90-174).
`q = none` covers a query whose datetime member is absent, malformed or
unparseable (all of which fall through to the single-request path). When a
window is present and `date_diff.days > 10`, the chunked path runs and never
raises; otherwise one request carrying the original query is issued and a
transport error propagates to the caller. -/
def query_consumption {α : Type}
    (oracle : Option DTRange → Except TransportError (List α))
    (q : Option DTRange) : QueryOutcome α :=
  match q with
  | some r =>
      if 10 < timedeltaDays (r.lt - r.gte) then
        { requests := (chunkRanges r.gte r.lt).map chunkQueryOf,
          chunked := true,
          result := .ok (queryConsumptionChunked oracle r.gte r.lt) }
      else
        { requests := [some r], chunked := false, result := oracle (some r) }
  | none => { requests := [none], chunked := false, result := oracle none }

/-! ## EDG West CSV loading and aggregation (src/edg.py) -/

/-- One raw CSV line under the fixed header
`BUS_name, timestamp, measurement, value, unit` (all cells as text). -/
structure CsvRow where
  BUS_name : String
  timestamp : String
  measurement : String
  value : String
  unit : String
deriving DecidableEq

/-- A parsed record as produced by EDGDataLoader.load_csv. -/
structure EDGRecord where
  BUS_name : String
  timestamp : String
  measurement : String
  value : ℚ
  unit : String
deriving DecidableEq

/-- Python `timestamp_str.replace("Z", "")`: drop every Z character. -/
def removeZ (s : String) : String := ⟨s.data.filter (fun c => c ≠ 'Z')⟩

/-- One iteration of the load_csv row loop (src/edg.py:84-115): parse the
timestamp into a date (`parseDate` stands for
`datetime.fromisoformat(...).date()`, `none` on ValueError), apply the
inclusive-start / exclusive-end date filter, then parse the value
(`parseFloat` stands for `float(...)`); `none` means the row is skipped. -/
def parseCsvRow (parseDate : String → Option ℤ) (parseFloat : String → Option ℚ)
    (start_date end_date : Option ℤ) (row : CsvRow) : Option EDGRecord :=
  match parseDate (removeZ row.timestamp) with
  | none => none
  | some record_date =>
      if (match start_date with | some s => decide (record_date < s) | none => false) then none
      else if (match end_date with | some e => decide (e ≤ record_date) | none => false) then none
      else
        match parseFloat row.value with
        | none => none
        | some v =>
            some { BUS_name := row.BUS_name, timestamp := row.timestamp,
                   measurement := row.measurement, value := v, unit := row.unit }

/-- Embeds EDGDataLoader.load_csv (src/edg.py:51-121): accumulate kept
records in order and count every skipped row (filtered or invalid) without
aborting; returns (records, skipped_count). -/
def load_csv (parseDate : String → Option ℤ) (parseFloat : String → Option ℚ)
    (start_date end_date : Option ℤ) (rows : List CsvRow) : List EDGRecord × ℕ :=
  rows.foldl
    (fun acc row =>
      match parseCsvRow parseDate parseFloat start_date end_date row with
      | some rec => (acc.1 ++ [rec], acc.2)
      | none => (acc.1, acc.2 + 1)) ([], 0)

/-- Timestamp normalisation of aggregate_by_timestamp (src/edg.py:150-155):
if not endswith Z, append T00:00:00Z when no T is present, else append Z. -/
def normTs (timestamp : String) : String :=
  if timestamp.data.getLast? = some 'Z' then timestamp
  else if timestamp.data.contains 'T' then timestamp ++ "Z"
  else timestamp ++ "T00:00:00Z"

/-- Insertion-ordered dictionary of aggregate_by_timestamp:
key = normalised timestamp, value = (consumedEnergy sum, generatedEnergy sum). -/
abbrev AggDict := List (String × ℚ × ℚ)

/-- defaultdict access `aggregated[timestamp]`: looking a key up creates the
entry `{"consumedEnergy": 0.0, "generatedEnergy": 0.0}` when it is absent. -/
def touchKey (acc : AggDict) (t : String) : AggDict :=
  if acc.any (fun e => e.1 == t) then acc else acc ++ [(t, 0, 0)]

/-- The `aggregated[timestamp][measurement] += value` update (the key is
known to be present after touchKey). -/
def addToEntry (acc : AggDict) (t meas : String) (v : ℚ) : AggDict :=
  acc.map (fun e =>
    if e.1 == t then
      (e.1,
       (if meas = "consumedEnergy" then e.2.1 + v else e.2.1),
       (if meas = "generatedEnergy" then e.2.2 + v else e.2.2))
    else e)

/-- One iteration of the aggregation loop (src/edg.py:145-158): the
defaultdict access always creates the timestamp's entry; the value is added
only when the measurement is one of the entry's two keys. -/
def aggStep (acc : AggDict) (r : EDGRecord) : AggDict :=
  let t := normTs r.timestamp
  let acc1 := touchKey acc t
  if r.measurement = "consumedEnergy" ∨ r.measurement = "generatedEnergy" then
    addToEntry acc1 t r.measurement r.value
  else acc1

/-- One aggregated output record. -/
structure AggRecord where
  timestamp : String
  consumedEnergy : ℚ
  generatedEnergy : ℚ
deriving DecidableEq

/-- Entry lookup in the finished dictionary (always found for emitted keys). -/
def dictEntry (d : AggDict) (t : String) : ℚ × ℚ :=
  match d.find? (fun e => e.1 == t) with
  | some e => e.2
  | none => (0, 0)

/-- Embeds EDGDataLoader.aggregate_by_timestamp (src/edg.py:123-172): build
the dictionary over all records, then emit one record per key in sorted key
order (Python `sorted` on strings = lexicographic code-point order). -/
def aggregate_by_timestamp (records : List EDGRecord) : List AggRecord :=
  let dict := records.foldl aggStep []
  (List.insertionSort (fun a b : String => a ≤ b) (dict.map (fun e => e.1))).map
    (fun t =>
      { timestamp := t,
        consumedEnergy := (dictEntry dict t).1,
        generatedEnergy := (dictEntry dict t).2 })

/-- Specification-side sum: total value of the records of measurement kind
`meas` whose normalised timestamp is `t` (exact arithmetic). -/
def sumFor (records : List EDGRecord) (meas t : String) : ℚ :=
  ((records.filter (fun r => decide (normTs r.timestamp = t ∧ r.measurement = meas))).map
    (fun r => r.value)).sum

/-! ## CDE batch upload (CDEApiClient.add_datapoints_batch, src/cde_client.py:269-442) -/

/-- A datapoint dictionary as consumed by add_datapoints_batch; `none` is an
absent key or a JSON null (both make `dict.get` return None). The
time-series identifier may be stored under any of the keys `timeseries`,
`timeseries_id` or `timeseriesId`. -/
structure Datapoint where
  measurement : Option String
  timestamp : Option String
  value : Option ℚ
  unit : Option String
  timeseries : Option String
  timeseries_id : Option String
  timeseriesId : Option String
deriving DecidableEq

/-- Python truthiness of an optional string (None and the empty string are
falsy). -/
def strTruthy : Option String → Bool
  | none => false
  | some s => s != ""

/-- Python truthiness of an optional integer (None and 0 are falsy). -/
def intTruthy : Option ℤ → Bool
  | none => false
  | some n => n != 0

/-- Python `a or b` on optional strings: returns `a` when truthy, else `b`. -/
def pyOr (a b : Option String) : Option String := if strTruthy a then a else b

/-- The lookup
`datapoint.get("timeseries") or datapoint.get("timeseries_id") or datapoint.get("timeseriesId")`
(src/cde_client.py:380-384). -/
def resolveTs (dp : Datapoint) : Option String :=
  pyOr (pyOr dp.timeseries dp.timeseries_id) dp.timeseriesId

/-- The `None in (measurement, timestamp, value, unit, timeseries_id)` check
(negated): true when all five looked-up values are non-None. -/
def hasAllFields (dp : Datapoint) : Bool :=
  dp.measurement.isSome && dp.timestamp.isSome && dp.value.isSome &&
    dp.unit.isSome && (resolveTs dp).isSome

/-- One encoded CSV line, in the fixed column order
`[measurement, timestamp, value, unit, timeseries]` of writer.writerow. -/
structure CsvUploadRow where
  measurement : String
  timestamp : String
  value : ℚ
  unit : String
  timeseries : String
deriving DecidableEq

/-- Encode one datapoint into a CSV line, or skip it when a field is missing
(src/cde_client.py:375-397). -/
def encodeRow (dp : Datapoint) : Option CsvUploadRow :=
  match dp.measurement, dp.timestamp, dp.value, dp.unit, resolveTs dp with
  | some m, some t, some v, some u, some ts =>
      some { measurement := m, timestamp := t, value := v, unit := u, timeseries := ts }
  | _, _, _, _, _ => none

/-- The rows actually written into one batch's CSV payload. -/
def encodeBatch (batch : List Datapoint) : List CsvUploadRow := batch.filterMap encodeRow

/-- The per-batch missing_fields counter. -/
def missingCount (batch : List Datapoint) : ℕ :=
  (batch.filter (fun dp => !(hasAllFields dp))).length

/-- The slicing loop `datapoints[start:end]` with `end = start + batch_size`:
consecutive groups of at most batch_size elements. Python raises
ZeroDivisionError when batch_size = 0, so that case is outside the model
(all theorems assume 0 < batch_size). -/
def toBatches {α : Type} (bs : ℕ) : List α → List (List α)
  | [] => []
  | x :: xs => (x :: xs.take (bs - 1)) :: toBatches bs (xs.drop (bs - 1))
termination_by l => l.length
decreasing_by
  have := List.length_drop (bs - 1) xs
  simp only [List.length_cons]
  omega

/-- Response of the CSV upload endpoint for one batch: HTTP 200/201, some
other HTTP status, or a raised requests.exceptions.RequestException. -/
inductive UploadOutcome where
  | ok
  | httpError
  | requestError
deriving DecidableEq

/-- The upload loop over batches, indexed from batch 0 (oracle i is the
outcome of the POST for batch i; every batch issues exactly one POST, even
after earlier failures, matching the `continue` on errors). Returns
((total_success, total_failed), payloads of the issued requests). -/
def runBatches (oracle : ℕ → UploadOutcome) :
    ℕ → List (List Datapoint) → (ℕ × ℕ) × List (List CsvUploadRow)
  | _, [] => ((0, 0), [])
  | i, b :: rest =>
      let rows := encodeBatch b
      let s1 : ℕ := match oracle i with | .ok => rows.length | _ => 0
      let f1 : ℕ := missingCount b + (match oracle i with | .ok => 0 | _ => rows.length)
      let r := runBatches oracle (i + 1) rest
      ((s1 + r.1.1, f1 + r.1.2), rows :: r.2)

/-- The success/failed/total dictionary returned by add_datapoints_batch. -/
structure UploadResult where
  success : ℕ
  failed : ℕ
  total : ℕ
deriving DecidableEq

/-- First-occurrence deduplication (insertion order of dictionary keys). -/
def dedupFirst : List String → List String
  | [] => []
  | x :: xs => x :: dedupFirst (xs.filter (fun y => y != x))
termination_by l => l.length
decreasing_by
  have := List.length_filter_le (fun y => y != x) xs
  simp only [List.length_cons]
  omega

/-- Keys of `datapoints_by_measurement` (src/cde_client.py:300-306): group by
the measurement value, keeping only truthy measurements, in first-occurrence
order. -/
def measurementGroups (dps : List Datapoint) : List String :=
  dedupFirst (dps.filterMap (fun dp =>
    match dp.measurement with
    | some m => if m = "" then none else some m
    | none => none))

/-- The complete per-measurement CSV files saved to disk before uploading
(src/cde_client.py:308-352): one file per measurement group, containing the
rows of that group's datapoints that pass the missing-field check. -/
def csvFilesFor (dps : List Datapoint) : List (String × List CsvUploadRow) :=
  (measurementGroups dps).map (fun m =>
    (m, encodeBatch (dps.filter (fun dp => dp.measurement == some m))))

/-- Observable outcome of one add_datapoints_batch call: the returned counts,
the payloads of the POSTs issued, and the CSV files written to disk. -/
structure BatchUploadRun where
  counts : UploadResult
  requests : List (List CsvUploadRow)
  csvFilesSaved : List (String × List CsvUploadRow)

/-- Embeds CDEApiClient.add_datapoints_batch (src/cde_client.py:269-442).
An empty datapoint list short-circuits to zero counts before the CSV files
are written and before any POST; otherwise the per-measurement CSV files are
saved, the list is sliced into batches, and each batch is encoded and
uploaded, accumulating success/failed counts. -/
def add_datapoints_batch (oracle : ℕ → UploadOutcome)
    (datapoints : List Datapoint) (batch_size : ℕ) : BatchUploadRun :=
  match datapoints with
  | [] => { counts := ⟨0, 0, 0⟩, requests := [], csvFilesSaved := [] }
  | _ =>
      let run := runBatches oracle 0 (toBatches batch_size datapoints)
      { counts := ⟨run.1.1, run.1.2, datapoints.length⟩,
        requests := run.2,
        csvFilesSaved := csvFilesFor datapoints }

/-- Claim-side predicate, written from the claim's words, not from the code:
"every input datapoint has all five required fields (measurement, timestamp,
value, unit, timeSeriesId) non-null", reading the time-series identifier as
present under any of the accepted keys. Compare with `hasAllFields`, the
check the code actually performs. -/
def hasFiveFieldsNonNull (dp : Datapoint) : Bool :=
  dp.measurement.isSome && dp.timestamp.isSome && dp.value.isSome &&
    dp.unit.isSome &&
    (dp.timeseries.isSome || dp.timeseries_id.isSome || dp.timeseriesId.isSome)

/-! ## Field-mapping resolution (src/main.py:955-1028 and src/edg.py:506-552) -/

/-- A persisted time-series descriptor echoed back by the CDE, as read by the
generation mapping loop: `datasetField["datacellar:datasetFieldID"]`,
`datasetField["datacellar:name"]`, and the top-level `id`. Numeric field ids
are modelled as integers (the code compares `str(field_id)` against "1",
"2", "3"). -/
structure GenTS where
  fieldId : Option ℤ
  fieldName : Option String
  tsId : Option String
deriving DecidableEq

/-- A mapping dictionary fieldName -> timeSeriesId in insertion order. -/
abbrev TsMapping := List (String × String)

/-- Python dict assignment `m[k] = v`: overwrite in place when the key
exists, else append. -/
def dictSet (m : TsMapping) (k v : String) : TsMapping :=
  if m.any (fun e => e.1 == k) then
    m.map (fun e => if e.1 == k then (k, v) else e)
  else m ++ [(k, v)]

/-- Dictionary lookup (`m.get(k)` / `k in m`). -/
def lookupStr (m : TsMapping) (k : String) : Option String :=
  (m.find? (fun e => e.1 == k)).map (fun e => e.2)

/-- One iteration of the generation mapping loop (src/main.py:959-1012):
skip when field id or ts id is falsy; map by `str(field_id)` in {"1", "2",
"3"}; only if that did not bind, fall back to the field name in
{"generatedEnergy", "outdoorTemperature", "humidityLevel"}; otherwise leave
the mapping unchanged (warning only). -/
def genStep (m : TsMapping) (ts : GenTS) : TsMapping :=
  if intTruthy ts.fieldId && strTruthy ts.tsId then
    match ts.fieldId, ts.tsId with
    | some f, some tid =>
        if f = 1 then dictSet m "generation" tid
        else if f = 2 then dictSet m "outdoorTemperature" tid
        else if f = 3 then dictSet m "humidity" tid
        else
          match ts.fieldName with
          | some nm =>
              if nm = "generatedEnergy" then dictSet m "generation" tid
              else if nm = "outdoorTemperature" then dictSet m "outdoorTemperature" tid
              else if nm = "humidityLevel" then dictSet m "humidity" tid
              else m
          | none => m
    | _, _ => m
  else m

/-- The full generation timeseries_mapping construction. -/
def gen_timeseries_mapping (l : List GenTS) : TsMapping := l.foldl genStep []

/-- The expected_mappings list of the generation branch. -/
def gen_expected : List String := ["generation", "outdoorTemperature", "humidity"]

/-- missing_mappings = [m for m in expected_mappings if m not in timeseries_mapping]. -/
def gen_missing_mappings (l : List GenTS) : List String :=
  gen_expected.filter (fun fld => (lookupStr (gen_timeseries_mapping l) fld).isNone)

/-- Specification-side static id -> fieldName table of the generation mapper
(used to state the theorems; the code is the if-chain in genStep). -/
def genIdTable (f : ℤ) : Option String :=
  if f = 1 then some "generation"
  else if f = 2 then some "outdoorTemperature"
  else if f = 3 then some "humidity"
  else none

/-- Specification-side static name -> fieldName table of the generation
mapper. -/
def genNameTable (nm : String) : Option String :=
  if nm = "generatedEnergy" then some "generation"
  else if nm = "outdoorTemperature" then some "outdoorTemperature"
  else if nm = "humidityLevel" then some "humidity"
  else none

/-- A time-series descriptor as read by EDGDataTransformer
.create_timeseries_mapping: `datasetField["datacellar:datasetFieldID"]` and
the top-level `id`. -/
structure EdgTS where
  dsFieldId : Option ℤ
  tsId : Option String
deriving DecidableEq

/-- One iteration of create_timeseries_mapping (src/edg.py:531-544):
`if field_id and ts_id` (truthiness), then bind through
field_map = {1: "consumedEnergy", 2: "generatedEnergy"}; no name fallback. -/
def edgStep (m : TsMapping) (ts : EdgTS) : TsMapping :=
  if intTruthy ts.dsFieldId && strTruthy ts.tsId then
    match ts.dsFieldId, ts.tsId with
    | some f, some tid =>
        if f = 1 then dictSet m "consumedEnergy" tid
        else if f = 2 then dictSet m "generatedEnergy" tid
        else m
    | _, _ => m
  else m

/-- Embeds EDGDataTransformer.create_timeseries_mapping (src/edg.py:506-552). -/
def create_timeseries_mapping (l : List EdgTS) : TsMapping := l.foldl edgStep []

/-- The expected_fields list of the EDG mapper. -/
def edg_expected : List String := ["consumedEnergy", "generatedEnergy"]

/-- missing_fields = [f for f in expected_fields if f not in timeseries_mapping]. -/
def edg_missing_fields (l : List EdgTS) : List String :=
  edg_expected.filter (fun fld => (lookupStr (create_timeseries_mapping l) fld).isNone)

/-- Specification-side static id -> fieldName table of the EDG mapper. -/
def edgIdTable (f : ℤ) : Option String :=
  if f = 1 then some "consumedEnergy"
  else if f = 2 then some "generatedEnergy"
  else none

/-! ## Property bundles and concrete example data used by the claims -/

/-- The chunk-list properties claimed for a date range [s, e): nonempty,
starts at s, ends at e, contiguous, non-overlapping and ascending, each
chunk a 10-day slice capped at e (so every chunk but the last has length
exactly 10 days), and the chunks' union is exactly [s, e). -/
def ChunksWellFormed (s e : ℤ) : Prop :=
  chunkRanges s e ≠ [] ∧
  (chunkRanges s e).head?.map Prod.fst = some s ∧
  (chunkRanges s e).getLast?.map Prod.snd = some e ∧
  List.Chain' (fun p q : ℤ × ℤ => p.2 = q.1) (chunkRanges s e) ∧
  List.Pairwise (fun p q : ℤ × ℤ => p.2 ≤ q.1) (chunkRanges s e) ∧
  (∀ p ∈ chunkRanges s e, p.1 < p.2 ∧ p.2 = min (p.1 + chunkSpan) e) ∧
  (∀ p ∈ (chunkRanges s e).dropLast, p.2 - p.1 = chunkSpan) ∧
  (∀ t : ℤ, (s ≤ t ∧ t < e) ↔ ∃ p ∈ chunkRanges s e, p.1 ≤ t ∧ t < p.2)

/-- A datapoint whose five nominal fields are all non-null but whose
time-series identifier is the empty string under the `timeseries` key. -/
def dpEmptyTs : Datapoint :=
  { measurement := some "consumedEnergy", timestamp := some "2025-05-01T00:00:00Z",
    value := some 10, unit := some "kWh",
    timeseries := some "", timeseries_id := none, timeseriesId := none }

/-- Scenario datapoint with all fields present. -/
def dpA : Datapoint :=
  { measurement := some "consumedEnergy", timestamp := some "2025-05-01T00:00:00Z",
    value := some 10, unit := some "kWh",
    timeseries := none, timeseries_id := some "ts-1", timeseriesId := none }

/-- Scenario datapoint lacking the unit field. -/
def dpB : Datapoint :=
  { measurement := some "consumedEnergy", timestamp := some "2025-05-02T00:00:00Z",
    value := some 11, unit := none,
    timeseries := none, timeseries_id := some "ts-1", timeseriesId := none }

/-- Scenario datapoint with all fields present. -/
def dpC : Datapoint :=
  { measurement := some "consumedEnergy", timestamp := some "2025-05-03T00:00:00Z",
    value := some 12, unit := some "kWh",
    timeseries := none, timeseries_id := some "ts-1", timeseriesId := none }

/-- Grid-CSV aggregation scenario input rows (already-loaded records). -/
def edgScenarioRows : List EDGRecord :=
  [{ BUS_name := "Bus1", timestamp := "2025-05-01T00:00:00",
     measurement := "consumedEnergy", value := 10, unit := "kWh" },
   { BUS_name := "Bus2", timestamp := "2025-05-01T00:00:00",
     measurement := "consumedEnergy", value := 5, unit := "kWh" },
   { BUS_name := "Bus1", timestamp := "2025-05-01T00:00:00",
     measurement := "generatedEnergy", value := 2, unit := "kWh" }]

/-- Encoded CSV line of dpA. -/
def rowA : CsvUploadRow :=
  { measurement := "consumedEnergy", timestamp := "2025-05-01T00:00:00Z",
    value := 10, unit := "kWh", timeseries := "ts-1" }

/-- Encoded CSV line of dpC. -/
def rowC : CsvUploadRow :=
  { measurement := "consumedEnergy", timestamp := "2025-05-03T00:00:00Z",
    value := 12, unit := "kWh", timeseries := "ts-1" }

/-- Field-mapper scenario descriptors. -/
def genScenarioList : List GenTS :=
  [{ fieldId := some 1, fieldName := some "generatedEnergy", tsId := some "ts-A" },
   { fieldId := some 2, fieldName := some "outdoorTemperature", tsId := some "ts-B" }]

/-! ## Lemmas about the chunking loop -/

theorem chunkSpan_pos : (0 : ℤ) < chunkSpan := by norm_num [chunkSpan, secPerDay]

theorem chunkRanges_of_lt {cur endT : ℤ} (h : cur < endT) :
    chunkRanges cur endT =
      (cur, min (cur + chunkSpan) endT) ::
        chunkRanges (min (cur + chunkSpan) endT) endT := by
  rw [chunkRanges]
  simp [h]

theorem chunkRanges_of_ge {cur endT : ℤ} (h : ¬ cur < endT) :
    chunkRanges cur endT = [] := by
  rw [chunkRanges]
  simp [h]

theorem chunkRanges_mem_spec (cur endT : ℤ) :
    ∀ p ∈ chunkRanges cur endT,
      cur ≤ p.1 ∧ p.1 < p.2 ∧ p.2 = min (p.1 + chunkSpan) endT := by
  intro p hp
  by_cases h : cur < endT
  · rw [chunkRanges_of_lt h] at hp
    rcases List.mem_cons.mp hp with hc | hm
    · subst hc
      exact ⟨le_refl _, lt_min (by have := chunkSpan_pos; omega) h, rfl⟩
    · have ih := chunkRanges_mem_spec (min (cur + chunkSpan) endT) endT p hm
      exact ⟨le_trans (le_min (by have := chunkSpan_pos; omega) h.le) ih.1,
        ih.2.1, ih.2.2⟩
  · rw [chunkRanges_of_ge h] at hp
    simp at hp
termination_by (endT - cur).toNat
decreasing_by
  all_goals
    have := chunkSpan_pos
    omega

theorem chunkRanges_getLast (cur endT : ℤ) (h : cur < endT) :
    ((chunkRanges cur endT).getLast?).map Prod.snd = some endT := by
  rw [chunkRanges_of_lt h]
  by_cases h2 : min (cur + chunkSpan) endT < endT
  · have ih := chunkRanges_getLast (min (cur + chunkSpan) endT) endT h2
    obtain ⟨x, xs, hxx⟩ :
        ∃ x xs, chunkRanges (min (cur + chunkSpan) endT) endT = x :: xs := by
      rw [chunkRanges_of_lt h2]
      exact ⟨_, _, rfl⟩
    rw [hxx] at ih ⊢
    rw [List.getLast?_cons_cons]
    exact ih
  · rw [chunkRanges_of_ge h2]
    have hmin : min (cur + chunkSpan) endT = endT := by omega
    simp [hmin]
termination_by (endT - cur).toNat
decreasing_by
  all_goals
    have := chunkSpan_pos
    omega

theorem chunkRanges_chain (cur endT : ℤ) :
    List.Chain' (fun p q : ℤ × ℤ => p.2 = q.1) (chunkRanges cur endT) := by
  by_cases h : cur < endT
  · rw [chunkRanges_of_lt h, List.chain'_cons']
    refine ⟨?_, chunkRanges_chain (min (cur + chunkSpan) endT) endT⟩
    intro q hq
    by_cases h2 : min (cur + chunkSpan) endT < endT
    · rw [chunkRanges_of_lt h2] at hq
      simp only [List.head?_cons, Option.mem_def, Option.some.injEq] at hq
      rw [← hq]
    · rw [chunkRanges_of_ge h2] at hq
      simp at hq
  · rw [chunkRanges_of_ge h]
    simp
termination_by (endT - cur).toNat
decreasing_by
  all_goals
    have := chunkSpan_pos
    omega

theorem chunkRanges_pairwise (cur endT : ℤ) :
    List.Pairwise (fun p q : ℤ × ℤ => p.2 ≤ q.1) (chunkRanges cur endT) := by
  by_cases h : cur < endT
  · rw [chunkRanges_of_lt h]
    refine List.pairwise_cons.mpr ⟨?_, chunkRanges_pairwise (min (cur + chunkSpan) endT) endT⟩
    intro q hq
    exact (chunkRanges_mem_spec (min (cur + chunkSpan) endT) endT q hq).1
  · rw [chunkRanges_of_ge h]
    simp
termination_by (endT - cur).toNat
decreasing_by
  all_goals
    have := chunkSpan_pos
    omega

theorem chunkRanges_dropLast (cur endT : ℤ) :
    ∀ p ∈ (chunkRanges cur endT).dropLast, p.2 - p.1 = chunkSpan := by
  intro p hp
  by_cases h : cur < endT
  · rw [chunkRanges_of_lt h] at hp
    by_cases h2 : min (cur + chunkSpan) endT < endT
    · obtain ⟨x, xs, hxx⟩ :
          ∃ x xs, chunkRanges (min (cur + chunkSpan) endT) endT = x :: xs := by
        rw [chunkRanges_of_lt h2]
        exact ⟨_, _, rfl⟩
      rw [hxx, List.dropLast_cons₂] at hp
      rcases List.mem_cons.mp hp with hc | hm
      · subst hc
        show min (cur + chunkSpan) endT - cur = chunkSpan
        omega
      · rw [← hxx] at hm
        exact chunkRanges_dropLast (min (cur + chunkSpan) endT) endT p hm
    · rw [chunkRanges_of_ge h2] at hp
      simp at hp
  · rw [chunkRanges_of_ge h] at hp
    simp at hp
termination_by (endT - cur).toNat
decreasing_by
  all_goals
    have := chunkSpan_pos
    omega

theorem chunkRanges_coverage (cur endT t : ℤ) :
    (cur ≤ t ∧ t < endT) ↔ ∃ p ∈ chunkRanges cur endT, p.1 ≤ t ∧ t < p.2 := by
  by_cases h : cur < endT
  · rw [chunkRanges_of_lt h]
    constructor
    · rintro ⟨h1, h2⟩
      by_cases hc : t < min (cur + chunkSpan) endT
      · exact ⟨(cur, min (cur + chunkSpan) endT), List.mem_cons_self _ _, h1, hc⟩
      · have h3 : min (cur + chunkSpan) endT ≤ t := not_lt.mp hc
        obtain ⟨p, hp, hpt⟩ :=
          (chunkRanges_coverage (min (cur + chunkSpan) endT) endT t).mp ⟨h3, h2⟩
        exact ⟨p, List.mem_cons_of_mem _ hp, hpt⟩
    · rintro ⟨p, hp, hpt⟩
      rcases List.mem_cons.mp hp with hc | hm
      · subst hc
        exact ⟨hpt.1, lt_of_lt_of_le hpt.2 (min_le_right _ _)⟩
      · have hrec := (chunkRanges_coverage (min (cur + chunkSpan) endT) endT t).mpr ⟨p, hm, hpt⟩
        exact ⟨le_trans (le_min (by have := chunkSpan_pos; omega) h.le) hrec.1, hrec.2⟩
  · rw [chunkRanges_of_ge h]
    simp
    omega
termination_by (endT - cur).toNat
decreasing_by
  all_goals
    have := chunkSpan_pos
    omega

/-- C2: for every date range R with span greater than 10 days and the fixed
chunk size of 10 days, the sub-ranges produced by the chunking loop are
contiguous, non-overlapping, ordered ascending, and their union exactly
equals R; every chunk has length 10 days except possibly the last, whose end
is capped at R.end. In particular the range 2025-05-01 (inclusive) to
2025-05-15 (exclusive) yields exactly the chunks [05-01, 05-11) and
[05-11, 05-15). -/
theorem claim_C2_chunking :
    (∀ s e : ℤ, chunkSpan < e - s → ChunksWellFormed s e) ∧
      chunkRanges (may2025 1) (may2025 15) =
        [(may2025 1, may2025 11), (may2025 11, may2025 15)] := by
  constructor
  · intro s e hspan
    have hse : s < e := by have := chunkSpan_pos; omega
    refine ⟨?_, ?_, ?_, ?_, ?_, ?_, ?_, ?_⟩
    · rw [chunkRanges_of_lt hse]
      exact List.cons_ne_nil _ _
    · rw [chunkRanges_of_lt hse]
      rfl
    · exact chunkRanges_getLast s e hse
    · exact chunkRanges_chain s e
    · exact chunkRanges_pairwise s e
    · intro p hp
      have hsp := chunkRanges_mem_spec s e p hp
      exact ⟨hsp.2.1, hsp.2.2⟩
    · exact chunkRanges_dropLast s e
    · exact fun t => chunkRanges_coverage s e t
  · have e1 : may2025 1 = 0 := by norm_num [may2025, dayStart, secPerDay]
    have e11 : may2025 11 = 864000 := by norm_num [may2025, dayStart, secPerDay]
    have e15 : may2025 15 = 1209600 := by norm_num [may2025, dayStart, secPerDay]
    rw [e1, e11, e15]
    rw [chunkRanges_of_lt (by norm_num : (0 : ℤ) < 1209600)]
    have m1 : min ((0 : ℤ) + chunkSpan) 1209600 = 864000 := by
      norm_num [chunkSpan, secPerDay]
    rw [m1]
    rw [chunkRanges_of_lt (by norm_num : (864000 : ℤ) < 1209600)]
    have m2 : min ((864000 : ℤ) + chunkSpan) 1209600 = 1209600 := by
      norm_num [chunkSpan, secPerDay]
    rw [m2]
    rw [chunkRanges_of_ge (by norm_num : ¬ (1209600 : ℤ) < 1209600)]

/-- Witness for claim_C2_chunking at the concrete scenario range. -/
theorem claim_C2_chunking_witness :
    chunkSpan < may2025 15 - may2025 1 ∧ ChunksWellFormed (may2025 1) (may2025 15) := by
  have h : chunkSpan < may2025 15 - may2025 1 := by
    norm_num [chunkSpan, may2025, dayStart, secPerDay]
  exact ⟨h, claim_C2_chunking.1 (may2025 1) (may2025 15) h⟩

/-! ## Lemmas about query_consumption -/

theorem timedeltaDays_dayAligned (a b : ℤ) :
    timedeltaDays (dayStart b - dayStart a) = b - a := by
  unfold timedeltaDays dayStart secPerDay
  rw [show b * 86400 - a * 86400 = (b - a) * 86400 by ring]
  exact Int.mul_fdiv_cancel _ (by norm_num)

theorem foldl_extend_eq {α : Type}
    (oracle : Option DTRange → Except TransportError (List α)) :
    ∀ (l : List (ℤ × ℤ)) (acc : List α),
      l.foldl (fun acc p =>
        match oracle (chunkQueryOf p) with
        | .ok recs => acc ++ recs
        | .error _ => acc) acc
      = acc ++ (l.filterMap (fun p => (oracle (chunkQueryOf p)).toOption)).flatten := by
  intro l
  induction l with
  | nil =>
      intro acc
      simp
  | cons p rest ih =>
      intro acc
      simp only [List.foldl_cons, List.filterMap_cons]
      cases hres : oracle (chunkQueryOf p) with
      | ok recs => simp [hres, ih, Except.toOption]
      | error e => simp [hres, ih, Except.toOption]

/-- C3: the query operation splits into 10-day chunks exactly when the
filtered date span exceeds 10 days; for every (day-aligned, as produced by
the query builders) range whose span is 10 days or fewer, exactly one
request carrying the full range is issued and no chunking occurs. -/
theorem claim_C3_chunk_trigger :
    ∀ (α : Type) (oracle : Option DTRange → Except TransportError (List α)) (a b : ℤ),
      ((query_consumption oracle (some ⟨dayStart a, dayStart b⟩)).chunked = true ↔
        10 < b - a) ∧
      (b - a ≤ 10 →
        (query_consumption oracle (some ⟨dayStart a, dayStart b⟩)).requests =
            [some ⟨dayStart a, dayStart b⟩] ∧
          (query_consumption oracle (some ⟨dayStart a, dayStart b⟩)).chunked = false ∧
          (query_consumption oracle (some ⟨dayStart a, dayStart b⟩)).result =
            oracle (some ⟨dayStart a, dayStart b⟩)) := by
  intro α oracle a b
  constructor
  · by_cases h : 10 < b - a <;>
      simp [query_consumption, timedeltaDays_dayAligned, h]
  · intro hle
    have h : ¬ 10 < b - a := by omega
    simp [query_consumption, timedeltaDays_dayAligned, h]

/-- Witness for claim_C3_chunk_trigger on a 5-day range. -/
theorem claim_C3_chunk_trigger_witness :
    (5 : ℤ) - 0 ≤ 10 ∧
      ((query_consumption (fun _ => Except.ok ([] : List ℕ))
          (some (⟨dayStart 0, dayStart 5⟩ : DTRange))).requests =
            [some (⟨dayStart 0, dayStart 5⟩ : DTRange)] ∧
        (query_consumption (fun _ => Except.ok ([] : List ℕ))
          (some (⟨dayStart 0, dayStart 5⟩ : DTRange))).chunked = false ∧
        (query_consumption (fun _ => Except.ok ([] : List ℕ))
            (some (⟨dayStart 0, dayStart 5⟩ : DTRange))).result =
          ((fun _ => Except.ok ([] : List ℕ)) :
            Option DTRange → Except TransportError (List ℕ))
            (some (⟨dayStart 0, dayStart 5⟩ : DTRange))) :=
  ⟨by norm_num,
    (claim_C3_chunk_trigger ℕ (fun _ => Except.ok []) 0 5).2 (by norm_num)⟩

/-- C4: for every chunked query, the operation returns normally whatever
subset of chunks fails: every chunk request is still issued, failed chunks
are skipped, and the returned record list is the concatenation of the
successful chunks' records in chunk (chronological) order. For an unchunked
single-request query, a transport error is re-raised to the caller. -/
theorem claim_C4_partial_failure :
    ∀ (α : Type) (oracle : Option DTRange → Except TransportError (List α)) (r : DTRange),
      (10 < timedeltaDays (r.lt - r.gte) →
        (query_consumption oracle (some r)).result =
            Except.ok (((chunkRanges r.gte r.lt).filterMap
              (fun p => (oracle (chunkQueryOf p)).toOption)).flatten) ∧
          (query_consumption oracle (some r)).requests =
            (chunkRanges r.gte r.lt).map chunkQueryOf) ∧
      (∀ err, ¬ 10 < timedeltaDays (r.lt - r.gte) →
        oracle (some r) = Except.error err →
        (query_consumption oracle (some r)).result = Except.error err) := by
  intro α oracle r
  constructor
  · intro h
    constructor
    · simp [query_consumption, h, queryConsumptionChunked, foldl_extend_eq]
    · simp [query_consumption, h]
  · intro err h herr
    simp [query_consumption, h, herr]

/-- Witness for claim_C4_partial_failure: a 14-day range where every chunk
request fails, and a 1-day range whose single request fails. -/
theorem claim_C4_partial_failure_witness :
    (10 < timedeltaDays ((⟨0, 1209600⟩ : DTRange).lt - (⟨0, 1209600⟩ : DTRange).gte) ∧
      ((query_consumption (((fun _ => Except.error TransportError.requestException)) :
            Option DTRange → Except TransportError (List ℕ))
          (some (⟨0, 1209600⟩ : DTRange))).result =
          Except.ok (((chunkRanges (0 : ℤ) 1209600).filterMap
            (fun p => (((fun _ => Except.error TransportError.requestException) :
              Option DTRange → Except TransportError (List ℕ))
                (chunkQueryOf p)).toOption)).flatten) ∧
        (query_consumption (((fun _ => Except.error TransportError.requestException)) :
              Option DTRange → Except TransportError (List ℕ))
            (some (⟨0, 1209600⟩ : DTRange))).requests =
          (chunkRanges (0 : ℤ) 1209600).map chunkQueryOf)) ∧
      ((query_consumption ((fun _ => Except.error TransportError.requestException) :
          Option DTRange → Except TransportError (List ℕ))
          (some (⟨0, 86400⟩ : DTRange))).result =
        Except.error TransportError.requestException) := by
  refine ⟨⟨by decide, ?_⟩, ?_⟩
  · exact (claim_C4_partial_failure ℕ
      (fun _ => Except.error TransportError.requestException) ⟨0, 1209600⟩).1 (by decide)
  · exact (claim_C4_partial_failure ℕ
      (fun _ => Except.error TransportError.requestException) ⟨0, 86400⟩).2
      TransportError.requestException (by decide) rfl

/-- C1: the claim says the end bound of every built query is exclusive at
the range's end date E, but create_full_day_query places the strict
less-than bound at midnight of E + 1 day, so a record timestamped exactly
at E (midnight) is included; the local CSV loader, by contrast, does drop
rows dated >= E. Concretely, with start day 0 and end day E = 3 the built
window still includes the timestamp dayStart 3, while load_csv with the
same bounds drops a row whose parsed date is day 3. -/
theorem claim_C1_end_bound_divergence :
    (create_full_day_query 0 3).lt = dayStart 4 ∧
      (create_full_day_query 0 3).includesAt (dayStart 3) ∧
      (create_weather_query 0 3).includesAt (dayStart 3) ∧
      load_csv (fun _ => some 3) (fun _ => some 1) (some 0) (some 3)
        [{ BUS_name := "Bus1", timestamp := "2025-05-04T00:00:00",
           measurement := "consumedEnergy", value := "1", unit := "kWh" }] = ([], 1) := by
  refine ⟨rfl, by decide, by decide, by decide⟩

/-! ## Lemmas about the batch upload -/

theorem toBatches_nil {α : Type} (bs : ℕ) : toBatches bs ([] : List α) = [] := by
  simp [toBatches]

theorem toBatches_cons {α : Type} (bs : ℕ) (x : α) (xs : List α) :
    toBatches bs (x :: xs) =
      (x :: xs.take (bs - 1)) :: toBatches bs (xs.drop (bs - 1)) := by
  simp [toBatches]

theorem toBatches_flatten {α : Type} (bs : ℕ) : (l : List α) →
    (toBatches bs l).flatten = l
  | [] => by simp [toBatches_nil]
  | x :: xs => by
      rw [toBatches_cons]
      simp only [List.flatten_cons]
      rw [toBatches_flatten bs (xs.drop (bs - 1))]
      simp [List.take_append_drop]
termination_by l => l.length
decreasing_by
  simp only [List.length_drop, List.length_cons]
  omega

theorem toBatches_mem_length {α : Type} (bs : ℕ) (hbs : 0 < bs) : (l : List α) →
    ∀ b ∈ toBatches bs l, b.length ≤ bs
  | [] => by
      intro b hb
      rw [toBatches_nil] at hb
      simp at hb
  | x :: xs => by
      intro b hb
      rw [toBatches_cons] at hb
      rcases List.mem_cons.mp hb with hc | hm
      · subst hc
        simp only [List.length_cons, List.length_take]
        omega
      · exact toBatches_mem_length bs hbs (xs.drop (bs - 1)) b hm
termination_by l => l.length
decreasing_by
  simp only [List.length_drop, List.length_cons]
  omega

theorem encodeRow_eq_none_iff (dp : Datapoint) :
    encodeRow dp = none ↔ hasAllFields dp = false := by
  unfold encodeRow hasAllFields
  cases hm : dp.measurement <;> cases ht : dp.timestamp <;> cases hv : dp.value <;>
    cases hu : dp.unit <;> cases hts : resolveTs dp <;> simp

theorem encode_missing_length (b : List Datapoint) :
    (encodeBatch b).length + missingCount b = b.length := by
  induction b with
  | nil => simp [encodeBatch, missingCount]
  | cons dp rest ih =>
      by_cases h : hasAllFields dp = true
      · obtain ⟨row, hrow⟩ : ∃ row, encodeRow dp = some row := by
          rcases he : encodeRow dp with _ | row
          · have hf := (encodeRow_eq_none_iff dp).mp he
            simp [h] at hf
          · exact ⟨row, rfl⟩
        simp [encodeBatch, missingCount, List.filterMap_cons, List.filter_cons,
          hrow, h] at ih ⊢
        omega
      · have hf : hasAllFields dp = false := by
          simpa using h
        have hrow : encodeRow dp = none := (encodeRow_eq_none_iff dp).mpr hf
        simp [encodeBatch, missingCount, List.filterMap_cons, List.filter_cons,
          hrow, hf] at ih ⊢
        omega

theorem runBatches_requests (oracle : ℕ → UploadOutcome)
    (batches : List (List Datapoint)) :
    ∀ i, (runBatches oracle i batches).2 = batches.map encodeBatch := by
  induction batches with
  | nil => intro i; rfl
  | cons b rest ih =>
      intro i
      simp [runBatches, ih (i + 1)]

theorem runBatches_success_eq (oracle : ℕ → UploadOutcome)
    (batches : List (List Datapoint)) :
    ∀ i, (runBatches oracle i batches).1.1 =
      ((batches.enumFrom i).map (fun p =>
        match oracle p.1 with
        | .ok => (encodeBatch p.2).length
        | _ => 0)).sum := by
  induction batches with
  | nil => intro i; rfl
  | cons b rest ih =>
      intro i
      simp only [runBatches, List.enumFrom, List.map_cons, List.sum_cons, ih (i + 1)]

theorem runBatches_failed_eq (oracle : ℕ → UploadOutcome)
    (batches : List (List Datapoint)) :
    ∀ i, (runBatches oracle i batches).1.2 =
      ((batches.enumFrom i).map (fun p =>
        missingCount p.2 + match oracle p.1 with
          | .ok => 0
          | _ => (encodeBatch p.2).length)).sum := by
  induction batches with
  | nil => intro i; rfl
  | cons b rest ih =>
      intro i
      simp only [runBatches, List.enumFrom, List.map_cons, List.sum_cons, ih (i + 1)]

theorem runBatches_total (oracle : ℕ → UploadOutcome)
    (batches : List (List Datapoint)) :
    ∀ i, (runBatches oracle i batches).1.1 + (runBatches oracle i batches).1.2 =
      (batches.map List.length).sum := by
  induction batches with
  | nil => intro i; rfl
  | cons b rest ih =>
      intro i
      have h := encode_missing_length b
      have ih2 := ih (i + 1)
      simp only [runBatches, List.map_cons, List.sum_cons]
      cases ho : oracle i <;> simp only [ho] <;> omega

theorem runBatches_failed_zero (oracle : ℕ → UploadOutcome)
    (hok : ∀ i, oracle i = .ok) :
    ∀ batches : List (List Datapoint), (∀ b ∈ batches, missingCount b = 0) →
      ∀ i, (runBatches oracle i batches).1.2 = 0 := by
  intro batches
  induction batches with
  | nil =>
      intro _ i
      rfl
  | cons b rest ih =>
      intro hms i
      have h1 : missingCount b = 0 := hms b (List.mem_cons_self _ _)
      have h2 := ih (fun c hc => hms c (List.mem_cons_of_mem _ hc)) (i + 1)
      simp only [runBatches]
      rw [hok i]
      simp [h1, h2]

/-- C5 (amended): over every batch run the counts satisfy
success + failed <= total (success and failed are naturals, hence
non-negative) with total the number of input datapoints, and failed = 0
whenever every input datapoint passes the code's five-field check — all
five of measurement, timestamp, value, unit non-null and the time-series
identifier, resolved through the `timeseries` / `timeseries_id` /
`timeseriesId` key chain with Python truthiness, non-null — and every
upload request succeeds. -/
theorem claim_C5_upload_counts :
    ∀ (oracle : ℕ → UploadOutcome) (dps : List Datapoint) (bs : ℕ), 0 < bs →
      ((add_datapoints_batch oracle dps bs).counts.success +
          (add_datapoints_batch oracle dps bs).counts.failed ≤
        (add_datapoints_batch oracle dps bs).counts.total) ∧
      (add_datapoints_batch oracle dps bs).counts.total = dps.length ∧
      ((∀ dp ∈ dps, hasAllFields dp = true) → (∀ i, oracle i = .ok) →
        (add_datapoints_batch oracle dps bs).counts.failed = 0) := by
  intro oracle dps bs _hbs
  cases dps with
  | nil => exact ⟨by simp [add_datapoints_batch], rfl, fun _ _ => rfl⟩
  | cons x xs =>
      refine ⟨?_, rfl, ?_⟩
      · have h1 := runBatches_total oracle (toBatches bs (x :: xs)) 0
        have h2 : ((toBatches bs (x :: xs)).map List.length).sum = (x :: xs).length := by
          rw [← List.length_flatten, toBatches_flatten]
        show (runBatches oracle 0 (toBatches bs (x :: xs))).1.1 +
            (runBatches oracle 0 (toBatches bs (x :: xs))).1.2 ≤ (x :: xs).length
        omega
      · intro hall hok
        show (runBatches oracle 0 (toBatches bs (x :: xs))).1.2 = 0
        refine runBatches_failed_zero oracle hok _ ?_ 0
        intro b hb
        have hsub : ∀ dp ∈ b, hasAllFields dp = true := by
          intro dp hdp
          refine hall dp ?_
          rw [← toBatches_flatten bs (x :: xs)]
          exact List.mem_flatten.mpr ⟨b, hb, hdp⟩
        unfold missingCount
        rw [List.length_eq_zero]
        refine List.filter_eq_nil_iff.mpr ?_
        intro dp hdp
        simp [hsub dp hdp]

/-- Witness for claim_C5_upload_counts on the three-datapoint scenario with
batch size 2 and all requests succeeding. -/
theorem claim_C5_upload_counts_witness :
    0 < 2 ∧
      (((add_datapoints_batch (fun _ => UploadOutcome.ok) [dpA, dpC] 2).counts.success +
          (add_datapoints_batch (fun _ => UploadOutcome.ok) [dpA, dpC] 2).counts.failed ≤
        (add_datapoints_batch (fun _ => UploadOutcome.ok) [dpA, dpC] 2).counts.total) ∧
      (add_datapoints_batch (fun _ => UploadOutcome.ok) [dpA, dpC] 2).counts.total =
        ([dpA, dpC] : List Datapoint).length ∧
      ((∀ dp ∈ ([dpA, dpC] : List Datapoint), hasAllFields dp = true) →
        (∀ i : ℕ, (fun _ => UploadOutcome.ok) i = UploadOutcome.ok) →
        (add_datapoints_batch (fun _ => UploadOutcome.ok) [dpA, dpC] 2).counts.failed = 0)) :=
  ⟨by norm_num, claim_C5_upload_counts (fun _ => UploadOutcome.ok) [dpA, dpC] 2 (by norm_num)⟩

/-- C5 as literally stated is false: dpEmptyTs has all five required fields
non-null (its time-series identifier is the empty string under the
`timeseries` key), every upload request succeeds, yet the run reports one
failure, because the or-chain lookup treats the empty string as absent. -/
theorem claim_C5_counterexample :
    (∀ dp ∈ ([dpEmptyTs] : List Datapoint), hasFiveFieldsNonNull dp = true) ∧
      (∀ i : ℕ, (fun _ => UploadOutcome.ok) i = UploadOutcome.ok) ∧
      (add_datapoints_batch (fun _ => UploadOutcome.ok) [dpEmptyTs] 1000).counts.failed = 1 := by
  refine ⟨by decide, fun _ => rfl, ?_⟩
  show (runBatches (fun _ => UploadOutcome.ok) 0 (toBatches 1000 [dpEmptyTs])).1.2 = 1
  have h1 : toBatches 1000 [dpEmptyTs] = [[dpEmptyTs]] := by
    rw [toBatches_cons]
    simp only [List.take_nil, List.drop_nil, toBatches_nil]
  rw [h1]
  decide

/-- C6: the input is partitioned into consecutive groups of at most
batch_size; a datapoint is excluded from the encoded payload exactly when it
fails the five-field check, and such datapoints are counted as failed
independently of the network (the payloads are a function of the input
alone); a failed request adds exactly that group's encoded row count to
failed while all groups are still attempted; the scenario of 3 datapoints
with 1 lacking a unit uploads 2 rows and counts 1 as failed before any
network call. -/
theorem claim_C6_batch_accounting :
    (∀ (bs : ℕ) (dps : List Datapoint), 0 < bs →
      (toBatches bs dps).flatten = dps ∧ ∀ b ∈ toBatches bs dps, b.length ≤ bs) ∧
    (∀ dp : Datapoint, encodeRow dp = none ↔ hasAllFields dp = false) ∧
    (∀ (oracle : ℕ → UploadOutcome) (dps : List Datapoint) (bs : ℕ),
      (add_datapoints_batch oracle dps bs).requests = (toBatches bs dps).map encodeBatch) ∧
    (∀ (oracle : ℕ → UploadOutcome) (dps : List Datapoint) (bs : ℕ),
      (add_datapoints_batch oracle dps bs).counts.failed =
        (((toBatches bs dps).enumFrom 0).map (fun p =>
          missingCount p.2 + match oracle p.1 with
            | .ok => 0
            | _ => (encodeBatch p.2).length)).sum ∧
      (add_datapoints_batch oracle dps bs).counts.success =
        (((toBatches bs dps).enumFrom 0).map (fun p =>
          match oracle p.1 with
          | .ok => (encodeBatch p.2).length
          | _ => 0)).sum) ∧
    (∀ oracle : ℕ → UploadOutcome,
      (add_datapoints_batch oracle [dpA, dpB, dpC] 1000).requests = [[rowA, rowC]] ∧
      1 ≤ (add_datapoints_batch oracle [dpA, dpB, dpC] 1000).counts.failed) ∧
    (add_datapoints_batch (fun _ => UploadOutcome.ok) [dpA, dpB, dpC] 1000).counts =
      ⟨2, 1, 3⟩ := by
  refine ⟨?_, encodeRow_eq_none_iff, ?_, ?_, ?_, ?_⟩
  · intro bs dps hbs
    exact ⟨toBatches_flatten bs dps, toBatches_mem_length bs hbs dps⟩
  · intro oracle dps bs
    cases dps with
    | nil => rw [toBatches_nil]; rfl
    | cons x xs =>
        show (runBatches oracle 0 (toBatches bs (x :: xs))).2 = _
        exact runBatches_requests oracle _ 0
  · intro oracle dps bs
    cases dps with
    | nil => rw [toBatches_nil]; exact ⟨rfl, rfl⟩
    | cons x xs =>
        exact ⟨runBatches_failed_eq oracle _ 0, runBatches_success_eq oracle _ 0⟩
  · intro oracle
    have hbatch : toBatches 1000 [dpA, dpB, dpC] = [[dpA, dpB, dpC]] := by
      have ht : ([dpB, dpC] : List Datapoint).take 999 = [dpB, dpC] := by decide
      have hd : ([dpB, dpC] : List Datapoint).drop 999 = [] := by decide
      rw [toBatches_cons, ht, hd, toBatches_nil]
    constructor
    · show (runBatches oracle 0 (toBatches 1000 [dpA, dpB, dpC])).2 = [[rowA, rowC]]
      rw [runBatches_requests oracle _ 0, hbatch]
      decide
    · show 1 ≤ (runBatches oracle 0 (toBatches 1000 [dpA, dpB, dpC])).1.2
      rw [runBatches_failed_eq oracle _ 0, hbatch]
      have hmc : missingCount [dpA, dpB, dpC] = 1 := by decide
      cases ho : oracle 0 <;>
        simp [List.enumFrom, ho, hmc]
  · have hbatch : toBatches 1000 [dpA, dpB, dpC] = [[dpA, dpB, dpC]] := by
      have ht : ([dpB, dpC] : List Datapoint).take 999 = [dpB, dpC] := by decide
      have hd : ([dpB, dpC] : List Datapoint).drop 999 = [] := by decide
      rw [toBatches_cons, ht, hd, toBatches_nil]
    have hcounts : (add_datapoints_batch (fun _ => UploadOutcome.ok)
        [dpA, dpB, dpC] 1000).counts =
        ⟨(runBatches (fun _ => UploadOutcome.ok) 0 (toBatches 1000 [dpA, dpB, dpC])).1.1,
          (runBatches (fun _ => UploadOutcome.ok) 0 (toBatches 1000 [dpA, dpB, dpC])).1.2,
          3⟩ := rfl
    rw [hcounts, hbatch]
    decide

/-- Witness for claim_C6_batch_accounting: the partition conjunct at batch
size 2 on the scenario datapoints. -/
theorem claim_C6_batch_accounting_witness :
    0 < 2 ∧
      ((toBatches 2 [dpA, dpB, dpC]).flatten = [dpA, dpB, dpC] ∧
        ∀ b ∈ toBatches 2 [dpA, dpB, dpC], b.length ≤ 2) :=
  ⟨by norm_num, claim_C6_batch_accounting.1 2 [dpA, dpB, dpC] (by norm_num)⟩

/-! ## Field-mapping resolution -/

/-- C7: field-mapping resolution binds each descriptor by numeric field-ID
first (the field name is ignored whenever the id is in the static id table),
falls back to the field name only when the id did not bind, leaves unmatched
descriptors unresolved (the mapping is unchanged; nothing fails), and
reports expected field names left unbound as missing; the generation
scenario resolves generation -> ts-A and outdoorTemperature -> ts-B with
humidity missing. The EDG mapper binds by field-ID through its own table
and has an empty name table (no descriptor ever binds by name), with the
same missing-field reporting. -/
theorem claim_C7_field_mapping :
    (∀ (m : TsMapping) (f : ℤ) (nm : Option String) (tid tgt : String),
      tid ≠ "" → genIdTable f = some tgt →
      genStep m { fieldId := some f, fieldName := nm, tsId := some tid } =
        dictSet m tgt tid) ∧
    (∀ (m : TsMapping) (f : ℤ) (nm tid : String),
      tid ≠ "" → f ≠ 0 → genIdTable f = none →
      genStep m { fieldId := some f, fieldName := some nm, tsId := some tid } =
        (match genNameTable nm with
         | some tgt => dictSet m tgt tid
         | none => m)) ∧
    (∀ (m : TsMapping) (ts : GenTS),
      intTruthy ts.fieldId = false ∨ strTruthy ts.tsId = false → genStep m ts = m) ∧
    (∀ (l : List GenTS) (fld : String),
      fld ∈ gen_missing_mappings l ↔
        fld ∈ gen_expected ∧ lookupStr (gen_timeseries_mapping l) fld = none) ∧
    (gen_timeseries_mapping genScenarioList =
        [("generation", "ts-A"), ("outdoorTemperature", "ts-B")] ∧
      gen_missing_mappings genScenarioList = ["humidity"]) ∧
    (∀ (m : TsMapping) (f : ℤ) (tid tgt : String),
      tid ≠ "" → edgIdTable f = some tgt →
      edgStep m { dsFieldId := some f, tsId := some tid } = dictSet m tgt tid) ∧
    (∀ (m : TsMapping) (f : ℤ) (tid : String),
      tid ≠ "" → f ≠ 0 → edgIdTable f = none →
      edgStep m { dsFieldId := some f, tsId := some tid } = m) ∧
    (∀ (l : List EdgTS) (fld : String),
      fld ∈ edg_missing_fields l ↔
        fld ∈ edg_expected ∧ lookupStr (create_timeseries_mapping l) fld = none) := by
  refine ⟨?_, ?_, ?_, ?_, ?_, ?_, ?_, ?_⟩
  · intro m f nm tid tgt htid hid
    have hf : (f = 1 ∧ tgt = "generation") ∨ (f = 2 ∧ tgt = "outdoorTemperature") ∨
        (f = 3 ∧ tgt = "humidity") := by
      unfold genIdTable at hid
      split_ifs at hid with h1 h2 h3
      · exact Or.inl ⟨h1, (Option.some.inj hid).symm⟩
      · exact Or.inr (Or.inl ⟨h2, (Option.some.inj hid).symm⟩)
      · exact Or.inr (Or.inr ⟨h3, (Option.some.inj hid).symm⟩)
    rcases hf with ⟨rfl, rfl⟩ | ⟨rfl, rfl⟩ | ⟨rfl, rfl⟩ <;>
      simp [genStep, intTruthy, strTruthy, htid]
  · intro m f nm tid htid hf0 hid
    unfold genIdTable at hid
    split_ifs at hid with h1 h2 h3
    by_cases hn1 : nm = "generatedEnergy"
    · subst hn1
      simp [genStep, genNameTable, intTruthy, strTruthy, htid, hf0, h1, h2, h3]
    · by_cases hn2 : nm = "outdoorTemperature"
      · subst hn2
        simp [genStep, genNameTable, intTruthy, strTruthy, htid, hf0, h1, h2, h3]
      · by_cases hn3 : nm = "humidityLevel"
        · subst hn3
          simp [genStep, genNameTable, intTruthy, strTruthy, htid, hf0, h1, h2, h3]
        · simp [genStep, genNameTable, intTruthy, strTruthy, htid, hf0,
            h1, h2, h3, hn1, hn2, hn3]
  · intro m ts h
    rcases ts with ⟨fid, fnm, tsid⟩
    rcases h with h | h <;> simp [genStep, h]
  · intro l fld
    simp [gen_missing_mappings, List.mem_filter, Option.isNone_iff_eq_none]
  · constructor <;> decide
  · intro m f tid tgt htid hid
    have hf : (f = 1 ∧ tgt = "consumedEnergy") ∨ (f = 2 ∧ tgt = "generatedEnergy") := by
      unfold edgIdTable at hid
      split_ifs at hid with h1 h2
      · exact Or.inl ⟨h1, (Option.some.inj hid).symm⟩
      · exact Or.inr ⟨h2, (Option.some.inj hid).symm⟩
    rcases hf with ⟨rfl, rfl⟩ | ⟨rfl, rfl⟩ <;>
      simp [edgStep, intTruthy, strTruthy, htid]
  · intro m f tid htid hf0 hid
    unfold edgIdTable at hid
    split_ifs at hid with h1 h2
    simp [edgStep, intTruthy, strTruthy, htid, hf0, h1, h2]
  · intro l fld
    simp [edg_missing_fields, List.mem_filter, Option.isNone_iff_eq_none]

/-- Witness for claim_C7_field_mapping: the id-priority conjunct at a
concrete descriptor whose name would bind a different field than its id. -/
theorem claim_C7_field_mapping_witness :
    ("ts-A" : String) ≠ "" ∧ genIdTable 1 = some "generation" ∧
      genStep []
          { fieldId := some 1, fieldName := some "outdoorTemperature", tsId := some "ts-A" } =
        dictSet [] "generation" "ts-A" :=
  ⟨by decide, rfl,
    claim_C7_field_mapping.1 [] 1 (some "outdoorTemperature") "ts-A" "generation"
      (by decide) rfl⟩

/-- C10: a batch upload of an empty datapoint list returns exactly
success = 0, failed = 0, total = 0, issues no POST and writes no CSV file. -/
theorem claim_C10_empty_batch :
    ∀ (oracle : ℕ → UploadOutcome) (bs : ℕ),
      add_datapoints_batch oracle [] bs =
        { counts := ⟨0, 0, 0⟩, requests := [], csvFilesSaved := [] } := by
  intro oracle bs
  rfl

/-! ## Lemmas about CSV loading and aggregation -/

theorem load_csv_foldl (pd : String → Option ℤ) (pf : String → Option ℚ)
    (s e : Option ℤ) :
    ∀ (rows : List CsvRow) (acc : List EDGRecord × ℕ),
      rows.foldl (fun acc row =>
        match parseCsvRow pd pf s e row with
        | some rec => (acc.1 ++ [rec], acc.2)
        | none => (acc.1, acc.2 + 1)) acc =
      (acc.1 ++ rows.filterMap (parseCsvRow pd pf s e),
       acc.2 + rows.countP (fun row => (parseCsvRow pd pf s e row).isNone)) := by
  intro rows
  induction rows with
  | nil =>
      intro acc
      simp
  | cons row rest ih =>
      intro acc
      simp only [List.foldl_cons, List.filterMap_cons, List.countP_cons]
      cases h : parseCsvRow pd pf s e row with
      | none =>
          rw [ih]
          refine Prod.ext (by simp) ?_
          simp
          omega
      | some rec =>
          rw [ih]
          refine Prod.ext (by simp) ?_
          simp

theorem filterMap_length_countP {α β : Type} (f : α → Option β) (l : List α) :
    (l.filterMap f).length + l.countP (fun a => (f a).isNone) = l.length := by
  induction l with
  | nil => simp
  | cons a rest ih =>
      cases h : f a <;> simp [h, List.countP_cons] <;> omega

theorem find?_eq_key {acc : AggDict} {u : String} {e : String × ℚ × ℚ}
    (h : acc.find? (fun e => e.1 == u) = some e) : e.1 = u := by
  have := List.find?_some h
  simpa using this

theorem find?_touchKey (acc : AggDict) (t u : String) :
    (touchKey acc t).find? (fun e => e.1 == u) =
      match acc.find? (fun e => e.1 == u) with
      | some e => some e
      | none => if t = u then some (t, 0, 0) else none := by
  unfold touchKey
  by_cases hany : acc.any (fun e => e.1 == t) = true
  · rw [if_pos hany]
    cases hf : acc.find? (fun e => e.1 == u) with
    | some e => simp [hf]
    | none =>
        by_cases htu : t = u
        · exfalso
          subst htu
          rw [List.find?_eq_none] at hf
          rcases List.any_eq_true.mp hany with ⟨e, he, hbe⟩
          exact hf e he hbe
        · simp [hf, htu]
  · rw [if_neg hany]
    rw [List.find?_append]
    cases hf : acc.find? (fun e => e.1 == u) with
    | some e => simp [hf]
    | none =>
        by_cases htu : t = u <;> simp [hf, htu]

theorem find?_map_keyfix (g : String × ℚ × ℚ → String × ℚ × ℚ)
    (hg : ∀ e, (g e).1 = e.1) (u : String) :
    ∀ l : AggDict, (l.map g).find? (fun e => e.1 == u) =
      (l.find? (fun e => e.1 == u)).map g := by
  intro l
  induction l with
  | nil => rfl
  | cons e rest ih =>
      rw [List.map_cons, List.find?_cons, List.find?_cons]
      have hgu : ((g e).1 == u) = (e.1 == u) := by rw [hg e]
      cases hu : (e.1 == u) with
      | true =>
          simp only [hgu, hu]
          rfl
      | false =>
          simp only [hgu, hu]
          exact ih

theorem find?_addToEntry (acc : AggDict) (t meas : String) (v : ℚ) (u : String) :
    (addToEntry acc t meas v).find? (fun e => e.1 == u) =
      (acc.find? (fun e => e.1 == u)).map (fun e =>
        if e.1 == t then
          (e.1,
           (if meas = "consumedEnergy" then e.2.1 + v else e.2.1),
           (if meas = "generatedEnergy" then e.2.2 + v else e.2.2))
        else e) := by
  unfold addToEntry
  exact find?_map_keyfix _
    (fun e => by by_cases h : (e.1 == t) = true <;> simp [h]) u acc

theorem find?_aggStep (acc : AggDict) (r : EDGRecord) (u : String) :
    (aggStep acc r).find? (fun e => e.1 == u) =
      if normTs r.timestamp = u then
        some (u,
          (((acc.find? (fun e => e.1 == u)).map (fun e => e.2)).getD (0, 0)).1 +
            (if r.measurement = "consumedEnergy" then r.value else 0),
          (((acc.find? (fun e => e.1 == u)).map (fun e => e.2)).getD (0, 0)).2 +
            (if r.measurement = "generatedEnergy" then r.value else 0))
      else acc.find? (fun e => e.1 == u) := by
  unfold aggStep
  by_cases hmeas : r.measurement = "consumedEnergy" ∨ r.measurement = "generatedEnergy"
  · rw [if_pos hmeas]
    rw [find?_addToEntry, find?_touchKey]
    by_cases htu : normTs r.timestamp = u
    · rw [if_pos htu]
      cases hf : acc.find? (fun e => e.1 == u) with
      | some e =>
          have he1 : e.1 = u := find?_eq_key hf
          rcases hmeas with hc | hg
          · simp [hf, he1, ← htu, hc]
          · have hne : r.measurement ≠ "consumedEnergy" := by
              rw [hg]; decide
            simp [hf, he1, ← htu, hg, hne]
      | none =>
          rcases hmeas with hc | hg
          · simp [hf, htu, hc]
          · have hne : r.measurement ≠ "consumedEnergy" := by
              rw [hg]; decide
            simp [hf, htu, hg, hne]
    · rw [if_neg htu]
      cases hf : acc.find? (fun e => e.1 == u) with
      | some e =>
          have he1 : e.1 = u := find?_eq_key hf
          have hne2 : ¬ e.1 = normTs r.timestamp := by
            rw [he1]
            exact fun hh => htu hh.symm
          simp [hf, hne2, htu]
      | none =>
          have : ¬ normTs r.timestamp = u := htu
          simp [hf, this]
  · rw [if_neg hmeas]
    push_neg at hmeas
    rw [find?_touchKey]
    by_cases htu : normTs r.timestamp = u
    · rw [if_pos htu]
      cases hf : acc.find? (fun e => e.1 == u) with
      | some e =>
          have he1 : e.1 = u := find?_eq_key hf
          simp [hf, hmeas.1, hmeas.2, htu, ← he1]
      | none =>
          simp [hf, htu, hmeas.1, hmeas.2]
    · rw [if_neg htu]
      cases hf : acc.find? (fun e => e.1 == u) with
      | some e => simp [hf, htu]
      | none =>
          have : ¬ normTs r.timestamp = u := htu
          simp [hf, this]

theorem sumFor_cons (r : EDGRecord) (rs : List EDGRecord) (k t : String) :
    sumFor (r :: rs) k t =
      (if normTs r.timestamp = t ∧ r.measurement = k then r.value else 0) +
        sumFor rs k t := by
  unfold sumFor
  rw [List.filter_cons]
  by_cases h : normTs r.timestamp = t ∧ r.measurement = k <;> simp [h]

theorem find?_foldl_aggStep :
    ∀ (rs : List EDGRecord) (acc : AggDict) (u : String),
      (rs.foldl aggStep acc).find? (fun e => e.1 == u) =
        match acc.find? (fun e => e.1 == u) with
        | some e => some (e.1, e.2.1 + sumFor rs "consumedEnergy" u,
            e.2.2 + sumFor rs "generatedEnergy" u)
        | none =>
            if rs.any (fun r => normTs r.timestamp == u) then
              some (u, sumFor rs "consumedEnergy" u, sumFor rs "generatedEnergy" u)
            else none := by
  intro rs
  induction rs with
  | nil =>
      intro acc u
      cases hf : acc.find? (fun e => e.1 == u) <;> simp [hf, sumFor]
  | cons r rest ih =>
      intro acc u
      rw [List.foldl_cons, ih (aggStep acc r) u, find?_aggStep,
        sumFor_cons r rest "consumedEnergy" u, sumFor_cons r rest "generatedEnergy" u]
      by_cases htu : normTs r.timestamp = u
      · rw [if_pos htu]
        cases hf : acc.find? (fun e => e.1 == u) with
        | some e =>
            have he1 : e.1 = u := find?_eq_key hf
            simp [hf, he1, htu, add_assoc]
        | none =>
            simp [hf, htu, add_assoc]
      · rw [if_neg htu]
        have hbe : (normTs r.timestamp == u) = false :=
          beq_eq_false_iff_ne.mpr htu
        cases hf : acc.find? (fun e => e.1 == u) <;>
          simp [hf, htu, hbe]

theorem map_fst_addToEntry (acc : AggDict) (t meas : String) (v : ℚ) :
    (addToEntry acc t meas v).map (fun e => e.1) = acc.map (fun e => e.1) := by
  unfold addToEntry
  rw [List.map_map]
  refine List.map_congr_left fun e _ => ?_
  by_cases h : e.1 = t <;> simp [h]

theorem map_fst_aggStep (acc : AggDict) (r : EDGRecord) :
    (aggStep acc r).map (fun e => e.1) =
      if acc.any (fun e => e.1 == normTs r.timestamp) = true then
        acc.map (fun e => e.1)
      else acc.map (fun e => e.1) ++ [normTs r.timestamp] := by
  unfold aggStep touchKey
  by_cases hany : acc.any (fun e => e.1 == normTs r.timestamp) = true
  · by_cases hmeas : r.measurement = "consumedEnergy" ∨ r.measurement = "generatedEnergy" <;>
      simp [hany, hmeas, map_fst_addToEntry]
  · by_cases hmeas : r.measurement = "consumedEnergy" ∨ r.measurement = "generatedEnergy" <;>
      simp [hany, hmeas, map_fst_addToEntry]

theorem mem_keys_aggStep (acc : AggDict) (r : EDGRecord) (u : String) :
    u ∈ (aggStep acc r).map (fun e => e.1) ↔
      u ∈ acc.map (fun e => e.1) ∨ u = normTs r.timestamp := by
  rw [map_fst_aggStep]
  by_cases h : acc.any (fun e => e.1 == normTs r.timestamp) = true
  · rw [if_pos h]
    have hmem : normTs r.timestamp ∈ acc.map (fun e => e.1) := by
      rcases List.any_eq_true.mp h with ⟨e, he, hbe⟩
      exact List.mem_map.mpr ⟨e, he, by simpa using hbe⟩
    constructor
    · exact Or.inl
    · rintro (h1 | rfl)
      exacts [h1, hmem]
  · rw [if_neg h]
    simp [List.mem_append]

theorem mem_keys_foldl :
    ∀ (rs : List EDGRecord) (acc : AggDict) (u : String),
      u ∈ (rs.foldl aggStep acc).map (fun e => e.1) ↔
        u ∈ acc.map (fun e => e.1) ∨ ∃ r ∈ rs, normTs r.timestamp = u := by
  intro rs
  induction rs with
  | nil =>
      intro acc u
      simp
  | cons r rest ih =>
      intro acc u
      rw [List.foldl_cons, ih (aggStep acc r) u, mem_keys_aggStep]
      simp only [List.mem_cons]
      constructor
      · rintro ((h1 | h2) | h3)
        · exact Or.inl h1
        · exact Or.inr ⟨r, Or.inl rfl, h2.symm⟩
        · rcases h3 with ⟨q, hq, hqt⟩
          exact Or.inr ⟨q, Or.inr hq, hqt⟩
      · rintro (h1 | ⟨q, hq | hq, hqt⟩)
        · exact Or.inl (Or.inl h1)
        · subst hq
          exact Or.inl (Or.inr hqt.symm)
        · exact Or.inr ⟨q, hq, hqt⟩

theorem nodup_keys_foldl :
    ∀ (rs : List EDGRecord) (acc : AggDict),
      (acc.map (fun e => e.1)).Nodup → ((rs.foldl aggStep acc).map (fun e => e.1)).Nodup := by
  intro rs
  induction rs with
  | nil =>
      intro acc h
      simpa using h
  | cons r rest ih =>
      intro acc h
      rw [List.foldl_cons]
      refine ih (aggStep acc r) ?_
      rw [map_fst_aggStep]
      by_cases hany : acc.any (fun e => e.1 == normTs r.timestamp) = true
      · rw [if_pos hany]
        exact h
      · rw [if_neg hany]
        have hnm : normTs r.timestamp ∉ acc.map (fun e => e.1) := by
          intro hmem
          apply hany
          rcases List.mem_map.mp hmem with ⟨e, he, he1⟩
          exact List.any_eq_true.mpr ⟨e, he, by simpa using he1⟩
        rw [(List.perm_append_singleton _ _).nodup_iff]
        exact List.nodup_cons.mpr ⟨hnm, h⟩

/-- C8: the CSV loader keeps, in order, exactly the rows that parse and pass
the date filter, counting every other row as skipped without aborting
(unparseable timestamps and unparseable values are always skipped);
aggregation emits one record per distinct normalised timestamp, both energy
fields always present, each equal to the exact sum of the matching rows'
values (zero when a kind has no rows); and the concrete three-row scenario
aggregates to the single expected record. -/
theorem claim_C8_aggregation :
    (∀ (pd : String → Option ℤ) (pf : String → Option ℚ) (s e : Option ℤ)
        (rows : List CsvRow),
      (load_csv pd pf s e rows).1 = rows.filterMap (parseCsvRow pd pf s e) ∧
      (load_csv pd pf s e rows).1.length + (load_csv pd pf s e rows).2 = rows.length ∧
      (∀ row : CsvRow, pd (removeZ row.timestamp) = none →
        parseCsvRow pd pf s e row = none) ∧
      (∀ row : CsvRow, pf row.value = none → parseCsvRow pd pf s e row = none)) ∧
    (∀ records : List EDGRecord,
      ((aggregate_by_timestamp records).map (fun a => a.timestamp)).Nodup ∧
      (∀ t : String, (∃ a ∈ aggregate_by_timestamp records, a.timestamp = t) ↔
        ∃ r ∈ records, normTs r.timestamp = t) ∧
      (∀ a ∈ aggregate_by_timestamp records,
        a.consumedEnergy = sumFor records "consumedEnergy" a.timestamp ∧
        a.generatedEnergy = sumFor records "generatedEnergy" a.timestamp) ∧
      (∀ k t : String, (¬ ∃ r ∈ records, normTs r.timestamp = t ∧ r.measurement = k) →
        sumFor records k t = 0)) ∧
    aggregate_by_timestamp edgScenarioRows =
      [{ timestamp := "2025-05-01T00:00:00Z", consumedEnergy := 15, generatedEnergy := 2 }] := by
  refine ⟨?_, ?_, ?_⟩
  · intro pd pf s e rows
    have hfold := load_csv_foldl pd pf s e rows ([], 0)
    refine ⟨?_, ?_, ?_, ?_⟩
    · show (rows.foldl _ ([], 0)).1 = _
      rw [hfold]
      simp
    · show (rows.foldl _ ([], 0)).1.length + (rows.foldl _ ([], 0)).2 = rows.length
      rw [hfold]
      simpa using filterMap_length_countP (parseCsvRow pd pf s e) rows
    · intro row h
      unfold parseCsvRow
      rw [h]
    · intro row h
      unfold parseCsvRow
      cases hpd : pd (removeZ row.timestamp) with
      | none => rfl
      | some d => simp [h]
  · intro records
    have hkeys : ∀ u : String,
        u ∈ (records.foldl aggStep []).map (fun e => e.1) ↔
          ∃ r ∈ records, normTs r.timestamp = u := by
      intro u
      rw [mem_keys_foldl records [] u]
      simp
    have hfind : ∀ u : String,
        (records.foldl aggStep []).find? (fun e => e.1 == u) =
          if records.any (fun r => normTs r.timestamp == u) then
            some (u, sumFor records "consumedEnergy" u, sumFor records "generatedEnergy" u)
          else none := by
      intro u
      rw [find?_foldl_aggStep records [] u]
      rfl
    have hsorted_mem : ∀ u : String,
        u ∈ List.insertionSort (fun a b : String => a ≤ b)
            ((records.foldl aggStep []).map (fun e => e.1)) ↔
          u ∈ (records.foldl aggStep []).map (fun e => e.1) :=
      fun u => (List.perm_insertionSort _ _).mem_iff
    refine ⟨?_, ?_, ?_, ?_⟩
    · show ((List.insertionSort _ _).map _).map _ |>.Nodup
      rw [List.map_map]
      have : ((fun a : AggRecord => a.timestamp) ∘ fun t => AggRecord.mk t
          ((dictEntry (records.foldl aggStep []) t).1)
          ((dictEntry (records.foldl aggStep []) t).2)) = fun t => t := rfl
      rw [this, List.map_id_fun']
      exact (List.perm_insertionSort _ _).nodup_iff.mpr
        (nodup_keys_foldl records [] (by simp))
    · intro t
      constructor
      · rintro ⟨a, ha, rfl⟩
        rcases List.mem_map.mp ha with ⟨u, hu, rfl⟩
        exact (hkeys u).mp ((hsorted_mem u).mp hu)
      · rintro ⟨r, hr, hrt⟩
        have hu : t ∈ (records.foldl aggStep []).map (fun e => e.1) :=
          (hkeys t).mpr ⟨r, hr, hrt⟩
        refine ⟨AggRecord.mk t ((dictEntry (records.foldl aggStep []) t).1)
          ((dictEntry (records.foldl aggStep []) t).2), ?_, rfl⟩
        exact List.mem_map.mpr ⟨t, (hsorted_mem t).mpr hu, rfl⟩
    · intro a ha
      rcases List.mem_map.mp ha with ⟨u, hu, rfl⟩
      have humem : u ∈ (records.foldl aggStep []).map (fun e => e.1) :=
        (hsorted_mem u).mp hu
      have hany : records.any (fun r => normTs r.timestamp == u) = true := by
        rcases (hkeys u).mp humem with ⟨r, hr, hrt⟩
        exact List.any_eq_true.mpr ⟨r, hr, by simpa using hrt⟩
      have hde : dictEntry (records.foldl aggStep []) u =
          (sumFor records "consumedEnergy" u, sumFor records "generatedEnergy" u) := by
        unfold dictEntry
        rw [hfind u, if_pos hany]
      constructor
      · show (dictEntry (records.foldl aggStep []) u).1 = _
        rw [hde]
      · show (dictEntry (records.foldl aggStep []) u).2 = _
        rw [hde]
    · intro k t h
      have hnil : records.filter
          (fun r => decide (normTs r.timestamp = t ∧ r.measurement = k)) = [] := by
        rw [List.filter_eq_nil_iff]
        intro r hr
        simp only [decide_eq_true_eq]
        intro hc
        exact h ⟨r, hr, hc.1, hc.2⟩
      unfold sumFor
      rw [hnil]
      simp
  · norm_num [aggregate_by_timestamp, edgScenarioRows, aggStep, touchKey, addToEntry,
      normTs, dictEntry, List.insertionSort, List.orderedInsert]
    decide

/-- Witness for claim_C8_aggregation: the default-zero conjunct at the
scenario rows and a timestamp no row normalises to. -/
theorem claim_C8_aggregation_witness :
    (¬ ∃ r ∈ edgScenarioRows, normTs r.timestamp = "1999-01-01T00:00:00Z" ∧
        r.measurement = "consumedEnergy") ∧
      sumFor edgScenarioRows "consumedEnergy" "1999-01-01T00:00:00Z" = 0 :=
  ⟨by decide,
    (claim_C8_aggregation.2.1 edgScenarioRows).2.2.2 "consumedEnergy"
      "1999-01-01T00:00:00Z" (by decide)⟩

end FaenInjector
